import Mathlib

/-!
Shallow embedding of the match-expression evaluation engine of
`pkg/apis/nfd/v1alpha1/nodefeaturerule/expression.go` (node-feature-discovery).

Modelling conventions:
* Go `MatchOp` is a string type; we keep it as `String` with the eleven
  catalog constants.  `matchOps` is the validity set from the source.
* Go maps (`map[string]string`, `map[string]Nil`, `MatchExpressionSet`)
  are embedded as association lists / lists of keys; map iteration order
  becomes list order (Go leaves it unspecified, so theorems about
  order-independence quantify over permutations where needed).
* `regexp.Compile` / `MatchString` belong to the Go standard library
  (outside this repository); they are abstracted as a `RegexEngine`
  parameter: `compile` may fail (`none` = compile error) and
  `matchString` is the unanchored search match.  All theorems are proved
  for every engine.
* `strconv.Atoi` is embedded as `atoi` below: optional sign, one or more
  ASCII digits, 64-bit signed range check.
* Go's `(T, error)` returns become `Except MatchError T`; the nil slice
  returned together with `false` by the set evaluators becomes `[]`.
* klog tracing branches are pure observers and are omitted.
-/

namespace NodeFeatureRule

/-- Go `MatchOp` is a string-typed enum. -/
abbrev MatchOp := String

def MatchAny : MatchOp := "Any"

def MatchIn : MatchOp := "In"

def MatchNotIn : MatchOp := "NotIn"

def MatchInRegexp : MatchOp := "InRegexp"

def MatchExists : MatchOp := "Exists"

def MatchDoesNotExist : MatchOp := "DoesNotExist"

def MatchGt : MatchOp := "Gt"

def MatchLt : MatchOp := "Lt"

def MatchGtLt : MatchOp := "GtLt"

def MatchIsTrue : MatchOp := "IsTrue"

def MatchIsFalse : MatchOp := "IsFalse"

/-- The `matchOps` validity set (source lines 32-44). -/
def matchOps : List MatchOp :=
  [MatchAny, MatchIn, MatchNotIn, MatchInRegexp, MatchExists, MatchDoesNotExist,
   MatchGt, MatchLt, MatchGtLt, MatchIsTrue, MatchIsFalse]

/-- Go `MatchExpression`: an operator and its string operand list. -/
structure MatchExpression where
  Op : MatchOp
  Value : List String
  deriving DecidableEq, Repr

/-- Error taxonomy: one constructor per distinct `fmt.Errorf` site of the
evaluator, carrying the data the Go message interpolates. -/
inductive MatchError where
  | invalidOp (op : MatchOp)
  | valueMustBeEmpty (op : MatchOp) (vals : List String)
  | valueMustBeNonEmpty (op : MatchOp)
  | valueMustBeOne (op : MatchOp) (vals : List String)
  | valueMustBeTwo (op : MatchOp) (vals : List String)
  | invalidRegexp (op : MatchOp) (vals : List String)
  | notANumber (s : String)
  | notANumberOperand (s : String)
  | invalidRange (op : MatchOp) (vals : List String)
  | unsupportedOp (op : MatchOp)
  | invalidOpForKeys (op : MatchOp)
  deriving DecidableEq, Repr

deriving instance DecidableEq for Except

/-- Abstraction of the external Go `regexp` package: `compile` models
`regexp.Compile` (with `none` for a compile error) and `matchString`
models the unanchored `Regexp.MatchString` search. -/
structure RegexEngine where
  RE : Type
  compile : String → Option RE
  matchString : RE → String → Bool

/-- Accumulate the value of a run of ASCII digits; `none` on a non-digit. -/
def digitsVal : List Char → Nat → Option Nat
  | [], acc => some acc
  | c :: rest, acc =>
    if c.isDigit then digitsVal rest (acc * 10 + (c.toNat - 48)) else none

/-- Parse a non-empty all-digit string to a natural number. -/
def parseDigits (cs : List Char) : Option Nat :=
  if cs.isEmpty then none else digitsVal cs 0

def int64Min : Int := -(2 ^ 63)

def int64Max : Int := 2 ^ 63 - 1

/-- Embedding of Go `strconv.Atoi`: optional sign, one or more ASCII
digits, and the signed 64-bit range check (`ErrRange` becomes `none`). -/
def atoi (s : String) : Option Int :=
  let signed : Option Int :=
    match s.data with
    | '+' :: rest => (parseDigits rest).map (fun n => (n : Int))
    | '-' :: rest => (parseDigits rest).map (fun n => -(n : Int))
    | cs => (parseDigits cs).map (fun n => (n : Int))
  match signed with
  | none => none
  | some n => if int64Min ≤ n ∧ n ≤ int64Max then some n else none

/-- Compile every operand, failing on the first compile error — the eager
compilation loop of the `MatchInRegexp` case (source lines 96-103). -/
def compileAll (eng : RegexEngine) : List String → Option (List eng.RE)
  | [] => some []
  | p :: rest =>
    match eng.compile p with
    | none => none
    | some re =>
      match compileAll eng rest with
      | none => none
      | some rs => some (re :: rs)

/-- The value-operator switch of `evaluateMatchExpression` (source lines
72-157), reached only when `valid` is true; a fall-through of a match
loop yields `ok false`, like the final `return false, nil`. -/
def evaluateValueOp (eng : RegexEngine) (m : MatchExpression) (value : String) :
    Except MatchError Bool :=
  if m.Op = MatchIn then
    if m.Value.length = 0 then .error (.valueMustBeNonEmpty m.Op)
    else .ok (m.Value.contains value)
  else if m.Op = MatchNotIn then
    if m.Value.length = 0 then .error (.valueMustBeNonEmpty m.Op)
    else .ok (!(m.Value.contains value))
  else if m.Op = MatchInRegexp then
    if m.Value.length = 0 then .error (.valueMustBeNonEmpty m.Op)
    else
      match compileAll eng m.Value with
      | none => .error (.invalidRegexp m.Op m.Value)
      | some res => .ok (res.any (fun re => eng.matchString re value))
  else if m.Op = MatchGt ∨ m.Op = MatchLt then
    match m.Value with
    | [rs] =>
      match atoi value with
      | none => .error (.notANumber value)
      | some l =>
        match atoi rs with
        | none => .error (.notANumberOperand rs)
        | some r =>
          .ok ((decide (l < r) && decide (m.Op = MatchLt)) ||
               (decide (l > r) && decide (m.Op = MatchGt)))
    | _ => .error (.valueMustBeOne m.Op m.Value)
  else if m.Op = MatchGtLt then
    match m.Value with
    | [s0, s1] =>
      match atoi value with
      | none => .error (.notANumber value)
      | some v =>
        match atoi s0 with
        | none => .error (.notANumberOperand s0)
        | some lo =>
          match atoi s1 with
          | none => .error (.notANumberOperand s1)
          | some hi =>
            if lo ≥ hi then .error (.invalidRange m.Op m.Value)
            else .ok (decide (v > lo) && decide (v < hi))
    | _ => .error (.valueMustBeTwo m.Op m.Value)
  else if m.Op = MatchIsTrue then
    if m.Value.length ≠ 0 then .error (.valueMustBeEmpty m.Op m.Value)
    else .ok (value == "true")
  else if m.Op = MatchIsFalse then
    if m.Value.length ≠ 0 then .error (.valueMustBeEmpty m.Op m.Value)
    else .ok (value == "false")
  else
    .error (.unsupportedOp m.Op)

/-- `evaluateMatchExpression` (source lines 47-160): catalog validity
check, the existence-operator switch, then — only for a valid (present)
candidate — the value-operator switch; an absent candidate falls through
to `return false, nil`. -/
def evaluateMatchExpression (eng : RegexEngine) (m : MatchExpression)
    (valid : Bool) (value : String) : Except MatchError Bool :=
  if matchOps.contains m.Op = false then .error (.invalidOp m.Op)
  else if m.Op = MatchAny then
    if m.Value.length ≠ 0 then .error (.valueMustBeEmpty m.Op m.Value) else .ok true
  else if m.Op = MatchExists then
    if m.Value.length ≠ 0 then .error (.valueMustBeEmpty m.Op m.Value) else .ok valid
  else if m.Op = MatchDoesNotExist then
    if m.Value.length ≠ 0 then .error (.valueMustBeEmpty m.Op m.Value) else .ok (!valid)
  else if valid then evaluateValueOp eng m value
  else .ok false

/-- `evaluateMatchExpressionKeys` (source lines 163-186): the key set is
embedded as the list of present keys; note the source performs no
operand-arity validation here. -/
def evaluateMatchExpressionKeys (m : MatchExpression) (name : String)
    (keys : List String) : Except MatchError Bool :=
  if m.Op = MatchAny then .ok true
  else if m.Op = MatchExists then .ok (keys.contains name)
  else if m.Op = MatchDoesNotExist then .ok (!(keys.contains name))
  else .error (.invalidOpForKeys m.Op)

/-- `evaluateMatchExpressionValues` (source lines 189-203): look the name
up in the value map (`ok` = membership, `v` = value or zero value) and
delegate to the scalar evaluator. -/
def evaluateMatchExpressionValues (eng : RegexEngine) (m : MatchExpression)
    (name : String) (values : List (String × String)) : Except MatchError Bool :=
  evaluateMatchExpression eng m (values.lookup name).isSome ((values.lookup name).getD "")

/-- Go `MatchedElement` is `map[string]string`; embedded as an
association list. -/
abbrev MatchedElement := List (String × String)

/-- `ret[i]["Name"]` with Go's zero value for a missing key. -/
def meName (me : MatchedElement) : String := (me.lookup "Name").getD ""

/-- Lexicographic less-or-equal on character lists: the reflexive closure
of Go's lexicographic string comparison. -/
def charListLe : List Char → List Char → Bool
  | [], _ => true
  | _ :: _, [] => false
  | a :: as, b :: bs => if a = b then charListLe as bs else decide (a < b)

/-- Comparison used by every `sort.Slice(ret, ...)` call of the source:
lexicographic by the `"Name"` field. -/
def meLE (a b : MatchedElement) : Prop :=
  charListLe (meName a).data (meName b).data = true

instance : DecidableRel meLE :=
  fun a b =>
    inferInstanceAs (Decidable (charListLe (meName a).data (meName b).data = true))

/-- The `sort.Slice(ret, func(i, j) ... Name < Name)` step: produce a
permutation sorted by the `"Name"` field. -/
def sortByName (l : List MatchedElement) : List MatchedElement :=
  List.insertionSort meLE l

/-- Go `MatchExpressionSet` is `map[string]*MatchExpression`; embedded as
an association list of (name, expression) entries. -/
abbrev MatchExpressionSet := List (String × MatchExpression)

/-- Go `InstanceFeature`: one attribute record. -/
structure InstanceFeature where
  Attributes : List (String × String)
  deriving DecidableEq, Repr

/-- Loop body of `MatchKeyNames` (source lines 206-239): evaluate the
expression against each key name itself (`valid` = true). -/
def matchKeyNamesAll (eng : RegexEngine) (m : MatchExpression) :
    List String → Except MatchError (List MatchedElement)
  | [] => .ok []
  | k :: rest =>
    match evaluateMatchExpression eng m true k with
    | .error e => .error e
    | .ok true =>
      match matchKeyNamesAll eng m rest with
      | .error e => .error e
      | .ok ret => .ok ([("Name", k)] :: ret)
    | .ok false => matchKeyNamesAll eng m rest

/-- `MatchKeyNames` (source lines 206-239). -/
def MatchKeyNames (eng : RegexEngine) (m : MatchExpression) (keys : List String) :
    Except MatchError (Bool × List MatchedElement) :=
  match matchKeyNamesAll eng m keys with
  | .error e => .error e
  | .ok ret => .ok (decide (ret.length > 0), sortByName ret)

/-- Loop body of `MatchValueNames` (source lines 242-270): evaluate the
expression against each name (`valid` = true), remembering the value. -/
def matchValueNamesAll (eng : RegexEngine) (m : MatchExpression) :
    List (String × String) → Except MatchError (List MatchedElement)
  | [] => .ok []
  | (k, v) :: rest =>
    match evaluateMatchExpression eng m true k with
    | .error e => .error e
    | .ok true =>
      match matchValueNamesAll eng m rest with
      | .error e => .error e
      | .ok ret => .ok ([("Name", k), ("Value", v)] :: ret)
    | .ok false => matchValueNamesAll eng m rest

/-- `MatchValueNames` (source lines 242-270). -/
def MatchValueNames (eng : RegexEngine) (m : MatchExpression)
    (values : List (String × String)) : Except MatchError (Bool × List MatchedElement) :=
  match matchValueNamesAll eng m values with
  | .error e => .error e
  | .ok ret => .ok (decide (ret.length > 0), sortByName ret)

/-- Loop of `MatchGetKeys` (source lines 299-315): AND accumulation with
short-circuit; `ok none` is the clean non-match (`false, nil, nil`). -/
def matchGetKeysAll (keys : List String) :
    MatchExpressionSet → Except MatchError (Option (List MatchedElement))
  | [] => .ok (some [])
  | (n, e) :: rest =>
    match evaluateMatchExpressionKeys e n keys with
    | .error err => .error err
    | .ok false => .ok none
    | .ok true =>
      match matchGetKeysAll keys rest with
      | .error err => .error err
      | .ok none => .ok none
      | .ok (some ret) => .ok (some ([("Name", n)] :: ret))

/-- `MatchGetKeys` (source lines 299-315). -/
def MatchGetKeys (m : MatchExpressionSet) (keys : List String) :
    Except MatchError (Bool × List MatchedElement) :=
  match matchGetKeysAll keys m with
  | .error e => .error e
  | .ok none => .ok (false, [])
  | .ok (some ret) => .ok (true, sortByName ret)

/-- `MatchKeys` (source lines 288-291): boolean projection of
`MatchGetKeys`. -/
def MatchKeys (m : MatchExpressionSet) (keys : List String) : Except MatchError Bool :=
  match MatchGetKeys m keys with
  | .error e => .error e
  | .ok (b, _) => .ok b

/-- Loop of `MatchGetValues` (source lines 326-342). -/
def matchGetValuesAll (eng : RegexEngine) (values : List (String × String)) :
    MatchExpressionSet → Except MatchError (Option (List MatchedElement))
  | [] => .ok (some [])
  | (n, e) :: rest =>
    match evaluateMatchExpressionValues eng e n values with
    | .error err => .error err
    | .ok false => .ok none
    | .ok true =>
      match matchGetValuesAll eng values rest with
      | .error err => .error err
      | .ok none => .ok none
      | .ok (some ret) =>
        .ok (some ([("Name", n), ("Value", (values.lookup n).getD "")] :: ret))

/-- `MatchGetValues` (source lines 326-342). -/
def MatchGetValues (eng : RegexEngine) (m : MatchExpressionSet)
    (values : List (String × String)) : Except MatchError (Bool × List MatchedElement) :=
  match matchGetValuesAll eng values m with
  | .error e => .error e
  | .ok none => .ok (false, [])
  | .ok (some ret) => .ok (true, sortByName ret)

/-- `MatchValues` (source lines 318-321): boolean projection of
`MatchGetValues`. -/
def MatchValues (eng : RegexEngine) (m : MatchExpressionSet)
    (values : List (String × String)) : Except MatchError Bool :=
  match MatchGetValues eng m values with
  | .error e => .error e
  | .ok (b, _) => .ok b

/-- `MatchGetInstances` (source lines 356-367): filter the records whose
attributes satisfy the whole set, preserving record order. -/
def MatchGetInstances (eng : RegexEngine) (m : MatchExpressionSet) :
    List InstanceFeature → Except MatchError (List MatchedElement)
  | [] => .ok []
  | i :: rest =>
    match MatchValues eng m i.Attributes with
    | .error e => .error e
    | .ok true =>
      match MatchGetInstances eng m rest with
      | .error e => .error e
      | .ok ret => .ok (i.Attributes :: ret)
    | .ok false => MatchGetInstances eng m rest

/-- `MatchInstances` (source lines 347-350): `len(v) > 0` projection of
`MatchGetInstances`. -/
def MatchInstances (eng : RegexEngine) (m : MatchExpressionSet)
    (instances : List InstanceFeature) : Except MatchError Bool :=
  match MatchGetInstances eng m instances with
  | .error e => .error e
  | .ok v => .ok (decide (v.length > 0))

/-- A concrete instance of the abstract regexp interface, used only to
instantiate theorems at closed inputs: the single pattern `"("` fails to
compile (as it does under `regexp.Compile`) and matching is string
equality. -/
def litRegexEngine : RegexEngine where
  RE := String
  compile p := if p = "(" then none else some p
  matchString re v := re == v

/-- The eight operators whose semantics depend on the candidate value
(every catalog operator except `Any`, `Exists`, `DoesNotExist`). -/
def valueBasedOps : List MatchOp :=
  [MatchIn, MatchNotIn, MatchInRegexp, MatchGt, MatchLt, MatchGtLt, MatchIsTrue, MatchIsFalse]

/-- Whether a Go `(T, error)` result carries a nil error. -/
def exceptOk {ε α : Type} (x : Except ε α) : Bool :=
  match x with
  | .ok _ => true
  | .error _ => false

/-- Whether a record's attributes fully satisfy the set: the condition
under which `MatchGetInstances` keeps the record. -/
def matchValuesOkTrue (eng : RegexEngine) (m : MatchExpressionSet) (i : InstanceFeature) : Bool :=
  match MatchValues eng m i.Attributes with
  | .ok true => true
  | _ => false

theorem charListLe_total (as : List Char) :
    ∀ bs, charListLe as bs = true ∨ charListLe bs as = true := by
  induction as with
  | nil => intro bs; left; rfl
  | cons a as ih =>
    intro bs
    cases bs with
    | nil => right; rfl
    | cons b bs =>
      by_cases hab : a = b
      · subst hab
        rcases ih bs with h | h
        · left; simpa [charListLe] using h
        · right; simpa [charListLe] using h
      · rcases lt_or_gt_of_ne hab with h | h
        · left; simp [charListLe, hab, h]
        · right; simp [charListLe, Ne.symm hab, h]

theorem charListLe_trans (as : List Char) :
    ∀ bs cs, charListLe as bs = true → charListLe bs cs = true →
      charListLe as cs = true := by
  induction as with
  | nil => intro bs cs _ _; rfl
  | cons a as ih =>
    intro bs cs h1 h2
    cases bs with
    | nil => simp [charListLe] at h1
    | cons b bs =>
      cases cs with
      | nil => simp [charListLe] at h2
      | cons c cs =>
        by_cases hab : a = b
        · subst hab
          by_cases hbc : a = c
          · subst hbc
            simp only [charListLe, if_pos rfl] at h1 h2 ⊢
            exact ih bs cs h1 h2
          · simp only [charListLe, if_pos rfl] at h1
            simpa [charListLe, hbc] using h2
        · by_cases hbc : b = c
          · subst hbc
            simpa [charListLe, hab] using h1
          · simp only [charListLe, if_neg hab, decide_eq_true_eq] at h1
            simp only [charListLe, if_neg hbc, decide_eq_true_eq] at h2
            have hac : a < c := lt_trans h1 h2
            simp [charListLe, ne_of_lt hac, hac]

instance : IsTotal MatchedElement meLE :=
  ⟨fun a b => charListLe_total (meName a).data (meName b).data⟩

instance : IsTrans MatchedElement meLE :=
  ⟨fun a b c hab hbc =>
    charListLe_trans (meName a).data (meName b).data (meName c).data hab hbc⟩

theorem sorted_sortByName (l : List MatchedElement) : List.Sorted meLE (sortByName l) :=
  List.sorted_insertionSort meLE l

theorem compileAll_eq_none_iff (eng : RegexEngine) :
    ∀ vals : List String, compileAll eng vals = none ↔ ∃ p ∈ vals, eng.compile p = none := by
  intro vals
  induction vals with
  | nil => simp [compileAll]
  | cons p rest ih =>
    cases hc : eng.compile p with
    | none => simp [compileAll, hc]
    | some re =>
      cases hr : compileAll eng rest with
      | none =>
        obtain ⟨q, hq, hqn⟩ := ih.mp hr
        simp only [compileAll, hc, hr]
        constructor
        · intro _; exact ⟨q, List.mem_cons_of_mem _ hq, hqn⟩
        · intro _; trivial
      | some rs =>
        simp only [compileAll, hc, hr]
        constructor
        · intro h; exact Option.noConfusion h
        · rintro ⟨q, hq, hqn⟩
          rcases List.mem_cons.mp hq with rfl | hq'
          · rw [hc] at hqn; exact Option.noConfusion hqn
          · have hnone : compileAll eng rest = none := ih.mpr ⟨q, hq', hqn⟩
            rw [hr] at hnone; exact Option.noConfusion hnone

theorem compileAll_any (eng : RegexEngine) (value : String) :
    ∀ (vals : List String) (res : List eng.RE), compileAll eng vals = some res →
      (res.any (fun re => eng.matchString re value) = true ↔
        ∃ p ∈ vals, ∃ re, eng.compile p = some re ∧ eng.matchString re value = true) := by
  intro vals
  induction vals with
  | nil =>
    intro res h
    simp only [compileAll, Option.some.injEq] at h
    subst h
    simp
  | cons p rest ih =>
    intro res h
    simp only [compileAll] at h
    cases hc : eng.compile p with
    | none => rw [hc] at h; exact Option.noConfusion h
    | some re =>
      rw [hc] at h
      cases hr : compileAll eng rest with
      | none => rw [hr] at h; exact Option.noConfusion h
      | some rs =>
        rw [hr] at h
        simp only [Option.some.injEq] at h
        subst h
        simp only [List.any_cons, Bool.or_eq_true, ih rs hr]
        constructor
        · rintro (hm | ⟨q, hq, re', hre', hm⟩)
          · exact ⟨p, List.mem_cons_self _ _, re, hc, hm⟩
          · exact ⟨q, List.mem_cons_of_mem _ hq, re', hre', hm⟩
        · rintro ⟨q, hq, re', hre', hm⟩
          rcases List.mem_cons.mp hq with rfl | hq'
          · rw [hc] at hre'
            cases hre'
            exact Or.inl hm
          · exact Or.inr ⟨q, hq', re', hre', hm⟩

theorem matchGetValuesAll_none (eng : RegexEngine) (values : List (String × String)) :
    ∀ m : MatchExpressionSet,
      (∀ p ∈ m, exceptOk (evaluateMatchExpressionValues eng p.2 p.1 values) = true) →
      (∃ p ∈ m, evaluateMatchExpressionValues eng p.2 p.1 values = .ok false) →
      matchGetValuesAll eng values m = .ok none := by
  intro m
  induction m with
  | nil =>
    rintro _ ⟨p, hp, _⟩
    exact absurd hp (List.not_mem_nil p)
  | cons hd tl ih =>
    rintro hok hbad
    obtain ⟨n, e⟩ := hd
    have hok_hd := hok (n, e) (List.mem_cons_self _ _)
    simp only [matchGetValuesAll]
    cases hres : evaluateMatchExpressionValues eng e n values with
    | error err => rw [hres] at hok_hd; simp [exceptOk] at hok_hd
    | ok b =>
      cases b with
      | false => simp
      | true =>
        have hbad' : ∃ p ∈ tl, evaluateMatchExpressionValues eng p.2 p.1 values = .ok false := by
          obtain ⟨p, hp, hpf⟩ := hbad
          rcases List.mem_cons.mp hp with rfl | hptl
          · simp only at hpf
            rw [hres] at hpf
            exact absurd hpf (by simp)
          · exact ⟨p, hptl, hpf⟩
        have hrec := ih (fun p hp => hok p (List.mem_cons_of_mem _ hp)) hbad'
        simp [hrec]

theorem matchGetKeysAll_none (keys : List String) :
    ∀ m : MatchExpressionSet,
      (∀ p ∈ m, exceptOk (evaluateMatchExpressionKeys p.2 p.1 keys) = true) →
      (∃ p ∈ m, evaluateMatchExpressionKeys p.2 p.1 keys = .ok false) →
      matchGetKeysAll keys m = .ok none := by
  intro m
  induction m with
  | nil =>
    rintro _ ⟨p, hp, _⟩
    exact absurd hp (List.not_mem_nil p)
  | cons hd tl ih =>
    rintro hok hbad
    obtain ⟨n, e⟩ := hd
    have hok_hd := hok (n, e) (List.mem_cons_self _ _)
    simp only [matchGetKeysAll]
    cases hres : evaluateMatchExpressionKeys e n keys with
    | error err => rw [hres] at hok_hd; simp [exceptOk] at hok_hd
    | ok b =>
      cases b with
      | false => simp
      | true =>
        have hbad' : ∃ p ∈ tl, evaluateMatchExpressionKeys p.2 p.1 keys = .ok false := by
          obtain ⟨p, hp, hpf⟩ := hbad
          rcases List.mem_cons.mp hp with rfl | hptl
          · simp only at hpf
            rw [hres] at hpf
            exact absurd hpf (by simp)
          · exact ⟨p, hptl, hpf⟩
        have hrec := ih (fun p hp => hok p (List.mem_cons_of_mem _ hp)) hbad'
        simp [hrec]

theorem matchGetInstances_filter (eng : RegexEngine) (m : MatchExpressionSet) :
    ∀ instances : List InstanceFeature,
      (∀ i ∈ instances, exceptOk (MatchValues eng m i.Attributes) = true) →
      MatchGetInstances eng m instances =
        .ok ((instances.filter (fun i => matchValuesOkTrue eng m i)).map
          (fun i => i.Attributes)) := by
  intro instances
  induction instances with
  | nil => intro _; rfl
  | cons i rest ih =>
    intro hok
    have hok_hd := hok i (List.mem_cons_self _ _)
    simp only [MatchGetInstances]
    cases hres : MatchValues eng m i.Attributes with
    | error err => rw [hres] at hok_hd; simp [exceptOk] at hok_hd
    | ok b =>
      have hrec := ih (fun j hj => hok j (List.mem_cons_of_mem _ hj))
      cases b with
      | false =>
        have hfi : matchValuesOkTrue eng m i = false := by simp [matchValuesOkTrue, hres]
        simp [hres, List.filter_cons, hfi, hrec]
      | true =>
        have hfi : matchValuesOkTrue eng m i = true := by simp [matchValuesOkTrue, hres]
        simp [hres, List.filter_cons, hfi, hrec]

theorem matchGetInstances_error (eng : RegexEngine) (m : MatchExpressionSet) (err : MatchError) :
    ∀ (pre : List InstanceFeature) (i : InstanceFeature) (post : List InstanceFeature),
      (∀ j ∈ pre, exceptOk (MatchValues eng m j.Attributes) = true) →
      MatchValues eng m i.Attributes = .error err →
      MatchGetInstances eng m (pre ++ i :: post) = .error err := by
  intro pre
  induction pre with
  | nil =>
    intro i post _ herr
    simp only [List.nil_append, MatchGetInstances]
    simp [herr]
  | cons j rest ih =>
    intro i post hok herr
    have hok_hd := hok j (List.mem_cons_self _ _)
    have hrec := ih i post (fun q hq => hok q (List.mem_cons_of_mem _ hq)) herr
    simp only [List.cons_append, MatchGetInstances]
    cases hres : MatchValues eng m j.Attributes with
    | error e => rw [hres] at hok_hd; simp [exceptOk] at hok_hd
    | ok b =>
      cases b with
      | false => simpa using hrec
      | true => simp [hrec]

/-- Claim C1: for every value-based operator (In, NotIn, InRegexp, Gt, Lt,
GtLt, IsTrue, IsFalse) and every MatchExpression with that operator, if
the candidate is absent (`valid` = false) then `evaluateMatchExpression`
returns `(false, no error)`, regardless of the candidate value and of the
operand list's contents — no arity, number, regexp or range validation is
reported. -/
theorem c1_absent_value_based_ops (eng : RegexEngine) (op : MatchOp)
    (hop : op ∈ valueBasedOps) (vals : List String) (value : String) :
    evaluateMatchExpression eng ⟨op, vals⟩ false value = .ok false := by
  fin_cases hop <;> rfl

/-- Witness for C1 at a concrete input: GtLt with inverted operands and an
absent candidate still yields a clean `false`. -/
theorem c1_witness :
    MatchGtLt ∈ valueBasedOps ∧
    evaluateMatchExpression litRegexEngine ⟨MatchGtLt, ["5", "1"]⟩ false "zzz" = .ok false :=
  ⟨by decide, c1_absent_value_based_ops litRegexEngine MatchGtLt (by decide) ["5", "1"] "zzz"⟩

/-- Claim C2: a GtLt expression whose two operands parse as integers with
operand[0] ≥ operand[1], evaluated against a present candidate that
parses as an integer, returns the InvalidRange error rather than a match
result. -/
theorem c2_gtlt_inverted_range (eng : RegexEngine) (s0 s1 value : String) (a b v : Int)
    (h0 : atoi s0 = some a) (h1 : atoi s1 = some b) (hv : atoi value = some v)
    (hab : b ≤ a) :
    evaluateMatchExpression eng ⟨MatchGtLt, [s0, s1]⟩ true value =
      .error (.invalidRange MatchGtLt [s0, s1]) := by
  simp only [evaluateMatchExpression, evaluateValueOp]
  simp only [hv, h0, h1]
  simp [MatchGtLt, MatchAny, MatchExists, MatchDoesNotExist, MatchIn, MatchNotIn,
    MatchInRegexp, MatchGt, MatchLt, matchOps, ge_iff_le, hab]

/-- Witness for C2: the spec's concrete scenario `{Op: GtLt, Value:
["5","1"]}` against candidate "3". -/
theorem c2_witness :
    atoi "5" = some 5 ∧ atoi "1" = some 1 ∧ atoi "3" = some 3 ∧ ((1 : Int) ≤ 5) ∧
    evaluateMatchExpression litRegexEngine ⟨MatchGtLt, ["5", "1"]⟩ true "3" =
      .error (.invalidRange MatchGtLt ["5", "1"]) :=
  ⟨by decide, by decide, by decide, by decide,
   c2_gtlt_inverted_range litRegexEngine "5" "1" "3" 5 1 3
     (by decide) (by decide) (by decide) (by decide)⟩

/-- Counterexample to claim C3 as stated: `evaluateMatchExpressionKeys`
performs no operand-arity validation, so `Exists` with the non-empty
operand list `["x"]` returns a clean result instead of an ArityError. -/
theorem c3_counterexample :
    evaluateMatchExpressionKeys ⟨MatchExists, ["x"]⟩ "a" [] = .ok false := by
  decide

/-- Claim C3 (amended): for key-presence evaluation, every operator other
than Any, Exists, DoesNotExist yields the invalid-operator-for-key-match
error; Any always matches, Exists returns presence, DoesNotExist returns
absence (exact complements), but the operand list is ignored — no
ArityError is reported for non-empty operands. -/
theorem c3_keys_semantics (m : MatchExpression) (name : String) (keys : List String) :
    (m.Op ≠ MatchAny → m.Op ≠ MatchExists → m.Op ≠ MatchDoesNotExist →
      evaluateMatchExpressionKeys m name keys = .error (.invalidOpForKeys m.Op)) ∧
    (m.Op = MatchAny → evaluateMatchExpressionKeys m name keys = .ok true) ∧
    (m.Op = MatchExists → evaluateMatchExpressionKeys m name keys = .ok (keys.contains name)) ∧
    (m.Op = MatchDoesNotExist →
      evaluateMatchExpressionKeys m name keys = .ok (!(keys.contains name))) ∧
    evaluateMatchExpressionKeys ⟨MatchDoesNotExist, m.Value⟩ name keys =
      (evaluateMatchExpressionKeys ⟨MatchExists, m.Value⟩ name keys).map (fun b => !b) := by
  refine ⟨?_, ?_, ?_, ?_, ?_⟩
  · intro h1 h2 h3
    simp [evaluateMatchExpressionKeys, h1, h2, h3]
  · intro h
    simp [evaluateMatchExpressionKeys, h]
  · intro h
    simp [evaluateMatchExpressionKeys, h, MatchExists, MatchAny]
  · intro h
    simp [evaluateMatchExpressionKeys, h, MatchDoesNotExist, MatchAny, MatchExists]
  · simp [evaluateMatchExpressionKeys, MatchDoesNotExist, MatchAny, MatchExists, Except.map]

/-- Witness for C3 (amended) at concrete inputs: a value operator is
rejected for key matching; Exists and DoesNotExist report presence and
absence. -/
theorem c3_witness :
    evaluateMatchExpressionKeys ⟨MatchGt, ["1"]⟩ "a" ["a"] =
      .error (.invalidOpForKeys MatchGt) ∧
    evaluateMatchExpressionKeys ⟨MatchExists, []⟩ "a" ["a"] = .ok (["a"].contains "a") ∧
    evaluateMatchExpressionKeys ⟨MatchDoesNotExist, []⟩ "a" ["b"] =
      .ok (!(["b"].contains "a")) :=
  ⟨(c3_keys_semantics ⟨MatchGt, ["1"]⟩ "a" ["a"]).1 (by decide) (by decide) (by decide),
   (c3_keys_semantics ⟨MatchExists, []⟩ "a" ["a"]).2.2.1 rfl,
   (c3_keys_semantics ⟨MatchDoesNotExist, []⟩ "a" ["b"]).2.2.2.1 rfl⟩

/-- Claim C4: for GtLt with exactly two operands, a present candidate, and
all three values parsing as integers with operand[0] < operand[1], the
evaluator matches exactly when the candidate lies strictly between the two
operands (open interval). -/
theorem c4_gtlt_open_interval (eng : RegexEngine) (s0 s1 value : String) (a b v : Int)
    (h0 : atoi s0 = some a) (h1 : atoi s1 = some b) (hv : atoi value = some v)
    (hab : a < b) :
    evaluateMatchExpression eng ⟨MatchGtLt, [s0, s1]⟩ true value =
      .ok (decide (a < v ∧ v < b)) := by
  simp only [evaluateMatchExpression, evaluateValueOp]
  simp only [hv, h0, h1]
  simp [MatchGtLt, MatchAny, MatchExists, MatchDoesNotExist, MatchIn, MatchNotIn,
    MatchInRegexp, MatchGt, MatchLt, matchOps, ge_iff_le, not_le.mpr hab, hab,
    Bool.decide_and, GT.gt]

/-- Witness for C4: the spec's scenario `{Op: GtLt, Value: ["1","5"]}`
against candidate "3" (inside the open interval). -/
theorem c4_witness :
    atoi "1" = some 1 ∧ atoi "5" = some 5 ∧ atoi "3" = some 3 ∧ ((1 : Int) < 5) ∧
    evaluateMatchExpression litRegexEngine ⟨MatchGtLt, ["1", "5"]⟩ true "3" =
      .ok (decide ((1 : Int) < 3 ∧ (3 : Int) < 5)) :=
  ⟨by decide, by decide, by decide, by decide,
   c4_gtlt_open_interval litRegexEngine "1" "5" "3" 1 5 3
     (by decide) (by decide) (by decide) (by decide)⟩

/-- Claim C5: for every MatchExpressionSet and candidate data in which
every entry evaluates without error and at least one entry does not match,
the named-set (AND) evaluators MatchGetValues and MatchGetKeys return a
clean non-match: `(false, nil, nil)` — no error and no matched elements. -/
theorem c5_and_non_match_clean (eng : RegexEngine) (m : MatchExpressionSet)
    (values : List (String × String)) (keys : List String) :
    ((∀ p ∈ m, exceptOk (evaluateMatchExpressionValues eng p.2 p.1 values) = true) →
      (∃ p ∈ m, evaluateMatchExpressionValues eng p.2 p.1 values = .ok false) →
      MatchGetValues eng m values = .ok (false, [])) ∧
    ((∀ p ∈ m, exceptOk (evaluateMatchExpressionKeys p.2 p.1 keys) = true) →
      (∃ p ∈ m, evaluateMatchExpressionKeys p.2 p.1 keys = .ok false) →
      MatchGetKeys m keys = .ok (false, [])) := by
  constructor
  · intro hvok hvbad
    unfold MatchGetValues
    rw [matchGetValuesAll_none eng values m hvok hvbad]
  · intro hkok hkbad
    unfold MatchGetKeys
    rw [matchGetKeysAll_none keys m hkok hkbad]

/-- Witness for C5: on the value side, a `Gt` entry that evaluates cleanly
to false (candidate "2" is not greater than operand "4"); on the key side,
an `Exists` entry failing against an empty key set. -/
theorem c5_witness :
    MatchGetValues litRegexEngine [("cpu.cores", ⟨MatchGt, ["4"]⟩)] [("cpu.cores", "2")] =
      .ok (false, []) ∧
    MatchGetKeys [("a", ⟨MatchExists, []⟩)] [] = .ok (false, []) :=
  ⟨(c5_and_non_match_clean litRegexEngine [("cpu.cores", ⟨MatchGt, ["4"]⟩)]
      [("cpu.cores", "2")] []).1 (by decide) (by decide),
   (c5_and_non_match_clean litRegexEngine [("a", ⟨MatchExists, []⟩)] [] []).2
      (by decide) (by decide)⟩

/-- Claim C6: for InRegexp with a non-empty operand list and a present
candidate, if any operand fails to compile the evaluator returns the
InvalidRegexp error — all operands are compiled before any matching is
attempted, so this holds even when the remaining valid patterns would not
have matched; otherwise it matches exactly when at least one compiled
pattern matches the candidate value. -/
theorem c6_inregexp_eager_compile (eng : RegexEngine) (vals : List String) (value : String)
    (hne : vals ≠ []) :
    ((∃ p ∈ vals, eng.compile p = none) →
      evaluateMatchExpression eng ⟨MatchInRegexp, vals⟩ true value =
        .error (.invalidRegexp MatchInRegexp vals)) ∧
    (∀ res, compileAll eng vals = some res →
      evaluateMatchExpression eng ⟨MatchInRegexp, vals⟩ true value =
        .ok (res.any (fun re => eng.matchString re value)) ∧
      (res.any (fun re => eng.matchString re value) = true ↔
        ∃ p ∈ vals, ∃ re, eng.compile p = some re ∧ eng.matchString re value = true)) := by
  constructor
  · intro hbad
    have hnone : compileAll eng vals = none := (compileAll_eq_none_iff eng vals).mpr hbad
    simp only [evaluateMatchExpression, evaluateValueOp]
    simp [MatchInRegexp, MatchAny, MatchExists, MatchDoesNotExist, MatchIn, MatchNotIn,
      matchOps, List.length_eq_zero, hne, hnone]
  · intro res hres
    constructor
    · simp only [evaluateMatchExpression, evaluateValueOp]
      simp [MatchInRegexp, MatchAny, MatchExists, MatchDoesNotExist, MatchIn, MatchNotIn,
        matchOps, List.length_eq_zero, hne, hres]
    · exact compileAll_any eng value vals res hres

/-- Witness for C6: the operand list `["(", "b"]` has one invalid pattern,
and evaluation errors even though the valid pattern "b" would not have
matched the candidate "zzz". -/
theorem c6_witness :
    (["(", "b"] : List String) ≠ [] ∧
    litRegexEngine.compile "(" = none ∧
    evaluateMatchExpression litRegexEngine ⟨MatchInRegexp, ["(", "b"]⟩ true "zzz" =
      .error (.invalidRegexp MatchInRegexp ["(", "b"]) :=
  ⟨by decide, rfl,
   (c6_inregexp_eager_compile litRegexEngine ["(", "b"] "zzz" (by decide)).1
     ⟨"(", by decide, rfl⟩⟩

/-- Claim C7: when no record produces an evaluation error,
MatchGetInstances returns exactly the records whose attribute maps fully
satisfy the set, in the original input order (a filter of the input), and
MatchInstances is true exactly when at least one record is included; any
evaluation error from any record aborts the whole operation and is
returned. -/
theorem c7_instances_order_filter (eng : RegexEngine) (m : MatchExpressionSet)
    (instances : List InstanceFeature) :
    ((∀ i ∈ instances, exceptOk (MatchValues eng m i.Attributes) = true) →
      MatchGetInstances eng m instances =
        .ok ((instances.filter (fun i => matchValuesOkTrue eng m i)).map
          (fun i => i.Attributes)) ∧
      (MatchInstances eng m instances = .ok true ↔
        instances.filter (fun i => matchValuesOkTrue eng m i) ≠ [])) ∧
    (∀ pre i post err, instances = pre ++ i :: post →
      (∀ j ∈ pre, exceptOk (MatchValues eng m j.Attributes) = true) →
      MatchValues eng m i.Attributes = .error err →
      MatchGetInstances eng m instances = .error err ∧
      MatchInstances eng m instances = .error err) := by
  constructor
  · intro hok
    have hget := matchGetInstances_filter eng m instances hok
    refine ⟨hget, ?_⟩
    unfold MatchInstances
    rw [hget]
    simp [List.length_pos]
  · intro pre i post err hsplit hok herr
    subst hsplit
    have hget := matchGetInstances_error eng m err pre i post hok herr
    refine ⟨hget, ?_⟩
    unfold MatchInstances
    rw [hget]

/-- Witness for C7: the spec's scenario — two records, only the second
satisfies `{"vendor": {Op: In, Value: ["X"]}}`; the result keeps exactly
the second record's attributes and the overall match is true. -/
theorem c7_witness :
    (∀ i ∈ ([⟨[("vendor", "Y")]⟩, ⟨[("vendor", "X")]⟩] : List InstanceFeature),
      exceptOk (MatchValues litRegexEngine [("vendor", ⟨MatchIn, ["X"]⟩)] i.Attributes)
        = true) ∧
    MatchGetInstances litRegexEngine [("vendor", ⟨MatchIn, ["X"]⟩)]
      [⟨[("vendor", "Y")]⟩, ⟨[("vendor", "X")]⟩] = .ok [[("vendor", "X")]] ∧
    MatchInstances litRegexEngine [("vendor", ⟨MatchIn, ["X"]⟩)]
      [⟨[("vendor", "Y")]⟩, ⟨[("vendor", "X")]⟩] = .ok true := by
  have h := (c7_instances_order_filter litRegexEngine [("vendor", ⟨MatchIn, ["X"]⟩)]
    [⟨[("vendor", "Y")]⟩, ⟨[("vendor", "X")]⟩]).1 (by decide)
  exact ⟨by decide, h.1.trans (by decide), h.2.mpr (by decide)⟩

/-- Claim C8: repeated evaluations of the same rule on the same data
return identical results (determinism as two-run equality), and every
matched-element list returned by MatchGetValues, MatchGetKeys,
MatchValueNames and MatchKeyNames is sorted lexicographically ascending by
the "Name" field. -/
theorem c8_deterministic_sorted (eng : RegexEngine) (mset : MatchExpressionSet)
    (m : MatchExpression) (values : List (String × String)) (keys : List String) :
    (MatchGetValues eng mset values = MatchGetValues eng mset values ∧
     MatchGetKeys mset keys = MatchGetKeys mset keys ∧
     MatchValueNames eng m values = MatchValueNames eng m values ∧
     MatchKeyNames eng m keys = MatchKeyNames eng m keys) ∧
    (∀ b l, MatchGetValues eng mset values = .ok (b, l) → List.Sorted meLE l) ∧
    (∀ b l, MatchGetKeys mset keys = .ok (b, l) → List.Sorted meLE l) ∧
    (∀ b l, MatchValueNames eng m values = .ok (b, l) → List.Sorted meLE l) ∧
    (∀ b l, MatchKeyNames eng m keys = .ok (b, l) → List.Sorted meLE l) := by
  refine ⟨⟨rfl, rfl, rfl, rfl⟩, ?_, ?_, ?_, ?_⟩
  · intro b l h
    unfold MatchGetValues at h
    cases hall : matchGetValuesAll eng values mset with
    | error e => rw [hall] at h; exact Except.noConfusion h
    | ok o =>
      rw [hall] at h
      cases o with
      | none =>
        simp only [Except.ok.injEq, Prod.mk.injEq] at h
        rw [← h.2]
        exact List.sorted_nil
      | some ret =>
        simp only [Except.ok.injEq, Prod.mk.injEq] at h
        rw [← h.2]
        exact sorted_sortByName ret
  · intro b l h
    unfold MatchGetKeys at h
    cases hall : matchGetKeysAll keys mset with
    | error e => rw [hall] at h; exact Except.noConfusion h
    | ok o =>
      rw [hall] at h
      cases o with
      | none =>
        simp only [Except.ok.injEq, Prod.mk.injEq] at h
        rw [← h.2]
        exact List.sorted_nil
      | some ret =>
        simp only [Except.ok.injEq, Prod.mk.injEq] at h
        rw [← h.2]
        exact sorted_sortByName ret
  · intro b l h
    unfold MatchValueNames at h
    cases hall : matchValueNamesAll eng m values with
    | error e => rw [hall] at h; exact Except.noConfusion h
    | ok ret =>
      rw [hall] at h
      simp only [Except.ok.injEq, Prod.mk.injEq] at h
      rw [← h.2]
      exact sorted_sortByName ret
  · intro b l h
    unfold MatchKeyNames at h
    cases hall : matchKeyNamesAll eng m keys with
    | error e => rw [hall] at h; exact Except.noConfusion h
    | ok ret =>
      rw [hall] at h
      simp only [Except.ok.injEq, Prod.mk.injEq] at h
      rw [← h.2]
      exact sorted_sortByName ret

/-- Witness for C8: a two-entry set given in anti-lexicographic insertion
order produces an output list sorted by name. -/
theorem c8_witness :
    MatchGetValues litRegexEngine [("b", ⟨MatchAny, []⟩), ("a", ⟨MatchAny, []⟩)]
        [("b", "1"), ("a", "2")] =
      .ok (true, [[("Name", "a"), ("Value", "2")], [("Name", "b"), ("Value", "1")]]) ∧
    List.Sorted meLE [[("Name", "a"), ("Value", "2")], [("Name", "b"), ("Value", "1")]] :=
  ⟨by decide,
   (c8_deterministic_sorted litRegexEngine [("b", ⟨MatchAny, []⟩), ("a", ⟨MatchAny, []⟩)]
       ⟨MatchAny, []⟩ [("b", "1"), ("a", "2")] []).2.1 true
     [[("Name", "a"), ("Value", "2")], [("Name", "b"), ("Value", "1")]] (by decide)⟩

/-- Claim C9: evaluating an empty MatchExpressionSet with MatchGetKeys or
MatchGetValues returns `(true, empty list, no error)` for every candidate
input — the empty set matches trivially. -/
theorem c9_empty_set_trivially_matches (eng : RegexEngine)
    (values : List (String × String)) (keys : List String) :
    MatchGetValues eng [] values = .ok (true, []) ∧
    MatchGetKeys [] keys = .ok (true, []) :=
  ⟨rfl, rfl⟩

/-- Claim C10: the boolean-only entry points are exact projections of
their Get variants: MatchKeys and MatchValues return the boolean and error
components of MatchGetKeys and MatchGetValues, and MatchInstances is true
exactly when MatchGetInstances returns a non-empty slice, with the same
error. -/
theorem c10_bool_projections (eng : RegexEngine) (m : MatchExpressionSet)
    (keys : List String) (values : List (String × String))
    (instances : List InstanceFeature) :
    MatchKeys m keys = (MatchGetKeys m keys).map Prod.fst ∧
    MatchValues eng m values = (MatchGetValues eng m values).map Prod.fst ∧
    MatchInstances eng m instances =
      (MatchGetInstances eng m instances).map (fun v => decide (v.length > 0)) ∧
    (MatchInstances eng m instances = .ok true ↔
      ∃ v, MatchGetInstances eng m instances = .ok v ∧ v ≠ []) := by
  refine ⟨?_, ?_, ?_, ?_⟩
  · unfold MatchKeys Except.map
    cases MatchGetKeys m keys with
    | error e => rfl
    | ok p => obtain ⟨b, l⟩ := p; rfl
  · unfold MatchValues Except.map
    cases MatchGetValues eng m values with
    | error e => rfl
    | ok p => obtain ⟨b, l⟩ := p; rfl
  · unfold MatchInstances Except.map
    cases MatchGetInstances eng m instances with
    | error e => rfl
    | ok v => rfl
  · unfold MatchInstances
    cases hg : MatchGetInstances eng m instances with
    | error e => simp
    | ok v => simp [List.length_pos]

end NodeFeatureRule
